import Mathlib

/-!
Shallow embedding of the StudyHall management server (`src/server.js`).

The server stores `students` and `study_halls` rows in SQLite and mutates
them through a handful of SQL statements.  We embed the row types as Lean
structures, the SQL statements as pure functions on lists of rows, and the
JavaScript glue (parseInt defaulting, `||` fallbacks, response formatting)
as explicit Option handling.

Dates: the database stores `DATE` columns as ISO `YYYY-MM-DD` text and
compares them lexicographically, which for valid dates coincides with
comparing the number `y*10000 + m*100 + d`.  SQLite's `date(x, '-1 month')`
and `date(x, '+1 month')` shift the month field and then normalise a day
overflow by rolling the excess days into the following month (for example
`date('2024-03-31', '-1 month') = '2024-03-02'`); `dateMinusOneMonth` and
`datePlusOneMonth` below implement exactly that behaviour.
-/

structure Date where
  y : Nat
  m : Nat
  d : Nat
deriving DecidableEq, Repr

/-- Numeric encoding of a date; comparing encodings models SQLite's
lexicographic comparison of ISO date text. -/
def Date.toN (a : Date) : Nat := a.y * 10000 + a.m * 100 + a.d

def isLeap (y : Nat) : Bool := y % 4 = 0 && (y % 100 != 0 || y % 400 = 0)

def daysInMonth (y m : Nat) : Nat :=
  if m = 2 then (if isLeap y then 29 else 28)
  else if m = 4 ∨ m = 6 ∨ m = 9 ∨ m = 11 then 30
  else 31

/-- SQLite `date(a, '-1 month')`: decrement the month (borrowing from the
year), then roll any day overflow into the following month. -/
def dateMinusOneMonth (a : Date) : Date :=
  let y := if a.m = 1 then a.y - 1 else a.y
  let m := if a.m = 1 then 12 else a.m - 1
  if a.d ≤ daysInMonth y m then ⟨y, m, a.d⟩
  else if m = 12 then ⟨y + 1, 1, a.d - daysInMonth y m⟩
  else ⟨y, m + 1, a.d - daysInMonth y m⟩

/-- SQLite `date(a, '+1 month')`: increment the month (carrying into the
year), then roll any day overflow into the following month. -/
def datePlusOneMonth (a : Date) : Date :=
  let y := if a.m = 12 then a.y + 1 else a.y
  let m := if a.m = 12 then 1 else a.m + 1
  if a.d ≤ daysInMonth y m then ⟨y, m, a.d⟩
  else if m = 12 then ⟨y + 1, 1, a.d - daysInMonth y m⟩
  else ⟨y, m + 1, a.d - daysInMonth y m⟩

/-- A well-formed calendar date (the server's reference dates come from
`new Date().toISOString()` and are always of this shape). -/
def ValidDate (a : Date) : Prop :=
  1 ≤ a.y ∧ 1 ≤ a.m ∧ a.m ≤ 12 ∧ 1 ≤ a.d ∧ a.d ≤ daysInMonth a.y a.m

instance (a : Date) : Decidable (ValidDate a) := by
  unfold ValidDate; exact inferInstance

theorem one_le_daysInMonth (y m : Nat) : 1 ≤ daysInMonth y m := by
  unfold daysInMonth; split_ifs <;> omega

theorem daysInMonth_jan (y : Nat) : daysInMonth y 1 = 31 := by
  unfold daysInMonth; norm_num

theorem daysInMonth_dec (y : Nat) : daysInMonth y 12 = 31 := by
  unfold daysInMonth; norm_num

/-- One month before a valid date is strictly earlier in the SQLite text
order. -/
theorem dateMinusOneMonth_toN_lt (a : Date) (h : ValidDate a) :
    (dateMinusOneMonth a).toN < a.toN := by
  obtain ⟨hy, hm1, hm2, hd1, hd2⟩ := h
  unfold dateMinusOneMonth
  by_cases hm : a.m = 1
  · have hdim : daysInMonth (a.y - 1) 12 = 31 := daysInMonth_dec _
    have hd31 : a.d ≤ 31 := by
      have := hd2; rw [hm] at this; rwa [daysInMonth_jan] at this
    simp only [hm, if_true, Date.toN]
    have hle : a.d ≤ daysInMonth (a.y - 1) 12 := by omega
    rw [if_pos hle]
    simp only [Date.toN]
    omega
  · have hne : ¬ a.m = 1 := hm
    simp only [hne, if_false]
    have hdim1 : 1 ≤ daysInMonth a.y (a.m - 1) := one_le_daysInMonth _ _
    by_cases hle : a.d ≤ daysInMonth a.y (a.m - 1)
    · rw [if_pos hle]; simp only [Date.toN]
      have : a.m - 1 < a.m := by omega
      omega
    · rw [if_neg hle]
      have hm12 : ¬ (a.m - 1 = 12) := by omega
      rw [if_neg hm12]
      simp only [Date.toN]
      omega

theorem not_lt_dateMinusOneMonth (a : Date) (h : ValidDate a) :
    ¬ a.toN < (dateMinusOneMonth a).toN :=
  Nat.lt_asymm (dateMinusOneMonth_toN_lt a h)

/-!
## Row types

`students` table (`server.js`, `createStudentsTable`): the fee columns are
SQLite INTEGERs (modelled as `Int`; nothing clamps them to be
non-negative), `status` is text, `join_date` / `left_date` /
`last_fee_calculated_date` are nullable.  `left_date` stores whatever text
the caller supplied, so the empty string is a possible stored value that
is distinct from NULL — this distinction matters to the dashboard query.
`join_date` and `last_fee_calculated_date` are only ever compared and
shifted as dates, so they are modelled as `Option Date`.
-/

structure Student where
  id : Nat
  name : String
  cabin : String
  hall : String
  phone : String
  feePaid : Int
  feeDue : Int
  status : String
  joinDate : Option Date
  leftDate : Option String
  monthlyFee : Int
  lastFeeCalculatedDate : Option Date
deriving DecidableEq, Repr

structure StudyHall where
  id : Nat
  name : String
  capacity : Int
  location : String
  description : String
deriving DecidableEq, Repr

inductive ApiError where
  | validation
  | notFound
  | conflict
deriving DecidableEq, Repr

/-!
## Student creation and edit (`POST /api/students`, `PUT /api/students/:id`)

The handlers run the request's `feeDue` / `feePaid` / `monthlyFee` fields
through JavaScript `parseInt`; we model the parse result as `Option Int`
(`none` when the field is absent or does not parse, i.e. `parseInt`
returned `NaN`).  The stored balance is `parseInt(feeDue) || 0`, i.e. the
parse result with `NaN` (and `0` itself) collapsed to `0`, which is
`Option.getD 0`.  The stored status is computed from
`parseInt(feeDue) === 0`, which is true only when the field parsed to the
number `0` — an absent or unparsable `feeDue` yields `'Pending'` even
though the stored balance defaults to `0`.
-/

structure StudentInput where
  name : String
  cabin : String
  hall : String
  phone : String
  feePaid : Option Int
  feeDue : Option Int
  monthlyFee : Option Int
  joinDate : Option Date
deriving DecidableEq, Repr

/-- `POST /api/students`: the row inserted for a valid request.
`today` is `new Date().toISOString().split('T')[0]` and `newId` the
autoincrement id. -/
def createStudent (inp : StudentInput) (today : Date) (newId : Nat) : Student :=
  { id := newId
    name := inp.name
    cabin := inp.cabin
    hall := inp.hall
    phone := inp.phone
    feePaid := inp.feePaid.getD 0
    feeDue := inp.feeDue.getD 0
    status := if inp.feeDue = some 0 then "Paid" else "Pending"
    joinDate := some (inp.joinDate.getD today)
    leftDate := none
    monthlyFee := inp.monthlyFee.getD 0
    lastFeeCalculatedDate := none }

structure UpdateInput where
  name : String
  cabin : String
  hall : String
  phone : String
  feePaidPresent : Bool
  feeDuePresent : Bool
  feePaid : Option Int
  feeDue : Option Int
  monthlyFee : Option Int
  joinDate : Option Date
  leftDate : Option String
deriving DecidableEq, Repr

/-- The SET clause of `PUT /api/students/:id`: every column is overwritten
from the request (`left_date` goes through `leftDate || null`, so an empty
string becomes NULL). -/
def updateStudentRecord (s : Student) (inp : UpdateInput) : Student :=
  { s with
    name := inp.name
    cabin := inp.cabin
    hall := inp.hall
    phone := inp.phone
    feePaid := inp.feePaid.getD 0
    feeDue := inp.feeDue.getD 0
    status := if inp.feeDue = some 0 then "Paid" else "Pending"
    monthlyFee := inp.monthlyFee.getD 0
    joinDate := inp.joinDate
    leftDate := match inp.leftDate with
      | some s => if s = "" then none else some s
      | none => none }

/-- `PUT /api/students/:id` including its validation (`!name || ... ||
feePaid === undefined || feeDue === undefined`) and the `this.changes === 0`
check. -/
def updateStudent (students : List Student) (sid : Nat) (inp : UpdateInput) :
    Except ApiError (List Student) :=
  if inp.name = "" ∨ inp.cabin = "" ∨ inp.hall = "" ∨ inp.phone = "" ∨
      inp.feePaidPresent = false ∨ inp.feeDuePresent = false then
    Except.error ApiError.validation
  else if students.any (fun s => decide (s.id = sid)) then
    Except.ok (students.map (fun s =>
      if s.id = sid then updateStudentRecord s inp else s))
  else
    Except.error ApiError.notFound

/-!
## Monthly fee accrual (`POST /api/fees/calculate-monthly`)

One SQL UPDATE; `D` is the run's reference date (the handler always passes
the current date).  The WHERE clause is the eligibility predicate, the SET
clause the per-row effect, and `this.changes` the number of matched rows.
-/

/-- WHERE clause: `left_date IS NULL AND monthly_fee > 0 AND
(last_fee_calculated_date IS NULL OR last_fee_calculated_date <
date(?, '-1 month'))`. -/
def accrualEligibleB (D : Date) (s : Student) : Bool :=
  s.leftDate.isNone && decide (0 < s.monthlyFee) &&
    (match s.lastFeeCalculatedDate with
     | none => true
     | some lv => decide (lv.toN < (dateMinusOneMonth D).toN))

/-- SET clause: `fee_due = fee_due + monthly_fee`,
`last_fee_calculated_date = ?`, and `status = CASE WHEN monthly_fee > 0
AND (fee_due + monthly_fee) > 0 THEN 'Pending' ELSE status END`. -/
def accrualStep (D : Date) (s : Student) : Student :=
  { s with
    feeDue := s.feeDue + s.monthlyFee
    lastFeeCalculatedDate := some D
    status := if 0 < s.monthlyFee ∧ 0 < s.feeDue + s.monthlyFee then "Pending" else s.status }

/-- The whole endpoint: the updated table together with the reported
`affected` count (`this.changes`). -/
def runMonthlyAccrual (students : List Student) (D : Date) :
    List Student × Nat :=
  (students.map (fun s => if accrualEligibleB D s then accrualStep D s else s),
   (students.filter (accrualEligibleB D)).length)

/-!
## Lifecycle (`PUT /api/students/:id/leave`, `PUT /api/students/:id/reactivate`)

`leave` reads `left_date` from the body and falls back to today via
JavaScript `||` (so an empty string also falls back); it then runs
`UPDATE students SET left_date = ? WHERE id = ?` and reports 404 when
`this.changes === 0`.  `reactivate` runs
`UPDATE students SET left_date = NULL WHERE id = ?` the same way.
-/

/-- `left_date || today`. -/
def markLeftDate (ld : Option String) (today : String) : String :=
  match ld with
  | none => today
  | some s => if s = "" then today else s

def markLeft (students : List Student) (sid : Nat) (ld : Option String)
    (today : String) : Except ApiError (List Student) :=
  let updated := students.map (fun s =>
    if s.id = sid then { s with leftDate := some (markLeftDate ld today) } else s)
  if students.any (fun s => decide (s.id = sid)) then Except.ok updated
  else Except.error ApiError.notFound

def reactivate (students : List Student) (sid : Nat) :
    Except ApiError (List Student) :=
  let updated := students.map (fun s =>
    if s.id = sid then { s with leftDate := none } else s)
  if students.any (fun s => decide (s.id = sid)) then Except.ok updated
  else Except.error ApiError.notFound

/-!
## Deletion (`DELETE /api/students/:id`, `DELETE /api/study-halls/:id`)

Hall deletion first counts
`students WHERE hall = (SELECT name FROM study_halls WHERE id = ?)`.
When no hall has the id the scalar subquery is NULL, the comparison is
never true, the count is 0, and the subsequent DELETE matches no row, so
the handler reports 404; when the count is positive it reports 400
(Conflict) without deleting.
-/

def deleteStudent (students : List Student) (sid : Nat) :
    Except ApiError (List Student) :=
  if students.any (fun s => decide (s.id = sid)) then
    Except.ok (students.filter (fun s => decide (s.id ≠ sid)))
  else Except.error ApiError.notFound

def deleteStudyHall (halls : List StudyHall) (students : List Student)
    (hid : Nat) : Except ApiError (List StudyHall) :=
  let nameOpt := (halls.find? (fun h => decide (h.id = hid))).map StudyHall.name
  let refCount := (students.filter (fun s =>
    match nameOpt with
    | some n => decide (s.hall = n)
    | none => false)).length
  if 0 < refCount then Except.error ApiError.conflict
  else if halls.any (fun h => decide (h.id = hid)) then
    Except.ok (halls.filter (fun h => decide (h.id ≠ hid)))
  else Except.error ApiError.notFound

/-!
## Dashboard (`GET /api/dashboard`)

Nine scalar subqueries over current state.  Note the asymmetry this file's
claims turn on: the active/departed counts and the monthly-fee total test
`left_date IS NULL OR left_date = ''`, while accrual and the upcoming-fees
view test `left_date IS NULL` only.
-/

def dashActiveB (s : Student) : Bool :=
  s.leftDate.isNone || decide (s.leftDate = some "")

structure DashboardData where
  totalStudents : Nat
  totalHalls : Nat
  activeStudents : Nat
  leftStudents : Nat
  monthlyFeeTotal : Int
  totalFees : Int
  pendingFees : Int
  totalFeeAmount : Int
  studentsWithPendingFees : Nat
deriving DecidableEq, Repr

def dashboard (halls : List StudyHall) (students : List Student) :
    DashboardData :=
  { totalStudents := students.length
    totalHalls := halls.length
    activeStudents := (students.filter dashActiveB).length
    leftStudents := (students.filter (fun s => !dashActiveB s)).length
    monthlyFeeTotal := ((students.filter dashActiveB).map Student.monthlyFee).sum
    totalFees := (students.map Student.feePaid).sum
    pendingFees := (students.map Student.feeDue).sum
    totalFeeAmount := (students.map (fun s => s.feePaid + s.feeDue)).sum
    studentsWithPendingFees := (students.filter (fun s => decide (0 < s.feeDue))).length }

/-!
## Upcoming fees (`GET /api/upcoming-fees`)

`SELECT *, CASE WHEN last_fee_calculated_date IS NULL THEN join_date ELSE
date(last_fee_calculated_date, '+1 month') END as next_fee_date FROM
students WHERE left_date IS NULL AND monthly_fee > 0 ORDER BY
next_fee_date ASC`.  SQLite sorts NULLs first under ASC, hence the
`Option Date` order below.
-/

def upcomingWhereB (s : Student) : Bool :=
  s.leftDate.isNone && decide (0 < s.monthlyFee)

def nextFeeDate (s : Student) : Option Date :=
  match s.lastFeeCalculatedDate with
  | none => s.joinDate
  | some d => some (datePlusOneMonth d)

/-- SQLite ASC order on a nullable date column: NULL first, then date
text order. -/
def optDateLe (a b : Option Date) : Prop :=
  match a with
  | none => True
  | some x =>
    match b with
    | none => False
    | some y => x.toN ≤ y.toN

instance decOptDateLe : DecidableRel optDateLe := fun a b =>
  match a with
  | none => isTrue trivial
  | some x =>
    match b with
    | none => isFalse (fun h => h)
    | some y => inferInstanceAs (Decidable (x.toN ≤ y.toN))

def rowLe (a b : Student × Option Date) : Prop := optDateLe a.2 b.2

instance decRowLe : DecidableRel rowLe := fun a b => decOptDateLe a.2 b.2

instance totalOptDateLe : IsTotal (Option Date) optDateLe where
  total a b := by
    cases a with
    | none => exact Or.inl trivial
    | some x =>
      cases b with
      | none => exact Or.inr trivial
      | some y => exact (Nat.le_total x.toN y.toN).imp id id

instance transOptDateLe : IsTrans (Option Date) optDateLe where
  trans a b c hab hbc := by
    cases a with
    | none => exact trivial
    | some x =>
      cases b with
      | none => exact absurd hab (fun h => h)
      | some y =>
        cases c with
        | none => exact absurd hbc (fun h => h)
        | some z => exact Nat.le_trans hab hbc

instance totalRowLe : IsTotal (Student × Option Date) rowLe where
  total a b := totalOptDateLe.total a.2 b.2

instance transRowLe : IsTrans (Student × Option Date) rowLe where
  trans a b c hab hbc := transOptDateLe.trans a.2 b.2 c.2 hab hbc

def upcomingFees (students : List Student) : List (Student × Option Date) :=
  List.insertionSort rowLe
    ((students.filter upcomingWhereB).map (fun s => (s, nextFeeDate s)))

/-!
## Fee-collection report (`GET /api/reports/fee-collection`)

`study_halls LEFT JOIN students` on the hall name, grouped per hall and
ordered by name; with the hall's name UNIQUE in the schema each hall row
produces exactly one report row built from the students whose `hall` text
matches.  The `collectionRate` arithmetic (`ROUND(collected * 100.0 /
total, 1)`) runs in SQLite REAL; it is modelled exactly over `ℚ`, with
`ROUND(x, 1)` as rounding half away from zero at one decimal (for the
non-negative amounts the rule coincides with `round (x * 10) / 10`).  The
route handler then formats: `collectionRate === 0 ? '0%' :
`${collectionRate}%``.
-/

def round1 (q : ℚ) : ℚ := ((round (q * 10) : ℤ) : ℚ) / 10

structure ReportRow where
  hall : String
  totalStudents : Nat
  feesCollected : Int
  feesPending : Int
  totalFeeAmount : Int
  collectionRate : ℚ
  collectionRateStr : String
deriving DecidableEq, Repr

def feeRow (students : List Student) (h : StudyHall) : ReportRow :=
  let ss := students.filter (fun s => decide (s.hall = h.name))
  let collected : Int := (ss.map Student.feePaid).sum
  let pending : Int := (ss.map Student.feeDue).sum
  let total : Int := (ss.map (fun s => s.feePaid + s.feeDue)).sum
  let rate : ℚ :=
    if ss.length = 0 ∨ total = 0 then 0
    else round1 ((collected : ℚ) * 100 / (total : ℚ))
  { hall := h.name
    totalStudents := ss.length
    feesCollected := collected
    feesPending := pending
    totalFeeAmount := total
    collectionRate := rate
    collectionRateStr := if rate = 0 then "0%" else toString rate ++ "%" }

def hallLe (a b : StudyHall) : Prop := a.name ≤ b.name

instance decHallLe : DecidableRel hallLe := fun a b =>
  inferInstanceAs (Decidable (a.name ≤ b.name))

instance totalHallLe : IsTotal StudyHall hallLe where
  total a b := le_total a.name b.name

instance transHallLe : IsTrans StudyHall hallLe where
  trans _ _ _ hab hbc := le_trans hab hbc

def feeCollectionReport (halls : List StudyHall) (students : List Student) :
    List ReportRow :=
  (List.insertionSort hallLe halls).map (feeRow students)

/-!
## Helper lemmas
-/

theorem list_filter_eq_nil_of {α : Type} (p : α → Bool) (l : List α)
    (h : ∀ a ∈ l, p a = false) : l.filter p = [] := by
  induction l with
  | nil => rfl
  | cons a t ih =>
    have ha := h a (List.mem_cons_self a t)
    simp only [List.filter, ha]
    exact ih (fun b hb => h b (List.mem_cons_of_mem a hb))

theorem list_map_id_of {α : Type} (f : α → α) (l : List α)
    (h : ∀ a ∈ l, f a = a) : l.map f = l := by
  induction l with
  | nil => rfl
  | cons a t ih =>
    simp only [List.map, h a (List.mem_cons_self a t)]
    rw [ih (fun b hb => h b (List.mem_cons_of_mem a hb))]

theorem list_forall2_map_self {α β : Type} (R : α → β → Prop) (f : α → β)
    (l : List α) (h : ∀ a ∈ l, R a (f a)) : List.Forall₂ R l (l.map f) := by
  induction l with
  | nil => exact List.Forall₂.nil
  | cons a t ih =>
    exact List.Forall₂.cons (h a (List.mem_cons_self a t))
      (ih (fun b hb => h b (List.mem_cons_of_mem a hb)))

/-- After one accrual run with a valid reference date, no row of the
resulting table satisfies the accrual WHERE clause for the same date:
an updated row carries `lastFeeCalculatedDate = some D`, and `D` is not
earlier than `D` minus one month. -/
theorem accrualEligibleB_accrualStep (D : Date) (h : ValidDate D) (s : Student) :
    accrualEligibleB D (accrualStep D s) = false := by
  have hnl : ¬ D.toN < (dateMinusOneMonth D).toN := not_lt_dateMinusOneMonth D h
  simp [accrualEligibleB, accrualStep, hnl]

theorem accrual_output_not_eligible (D : Date) (h : ValidDate D) (s : Student) :
    accrualEligibleB D (if accrualEligibleB D s then accrualStep D s else s) = false := by
  by_cases he : accrualEligibleB D s = true
  · rw [if_pos he]
    exact accrualEligibleB_accrualStep D h s
  · rw [if_neg he]
    exact Bool.eq_false_iff.mpr he

/-!
## Sample data used by the witnesses
-/

def sampleDate : Date := ⟨2024, 2, 2⟩

def sampleStudentA : Student :=
  { id := 1, name := "A", cabin := "C1", hall := "Hall A", phone := "9"
    feePaid := 0, feeDue := 0, status := "Paid"
    joinDate := some ⟨2024, 1, 1⟩, leftDate := none
    monthlyFee := 500, lastFeeCalculatedDate := none }

def sampleStudentLeft : Student :=
  { id := 2, name := "B", cabin := "C2", hall := "Hall A", phone := "8"
    feePaid := 100, feeDue := 300, status := "Pending"
    joinDate := some ⟨2023, 6, 1⟩, leftDate := some "2024-01-15"
    monthlyFee := 400, lastFeeCalculatedDate := some ⟨2023, 12, 1⟩ }

/-- C2: running `runMonthlyAccrual` twice in succession with the same
reference date `D` is idempotent — the first run reports exactly the
eligible rows as affected, and the second run affects zero records and
leaves the table unchanged, because every previously eligible student now
carries `lastFeeCalculatedDate = D`, which is not older than `D` minus one
calendar month. -/
theorem c2_accrual_idempotent (students : List Student) (D : Date)
    (h : ValidDate D) :
    (runMonthlyAccrual students D).2
        = (students.filter (accrualEligibleB D)).length
    ∧ (runMonthlyAccrual (runMonthlyAccrual students D).1 D).2 = 0
    ∧ (runMonthlyAccrual (runMonthlyAccrual students D).1 D).1
        = (runMonthlyAccrual students D).1 := by
  refine ⟨rfl, ?_, ?_⟩
  · have hnil : ((runMonthlyAccrual students D).1).filter (accrualEligibleB D) = [] := by
      apply list_filter_eq_nil_of
      intro a ha
      simp only [runMonthlyAccrual] at ha
      obtain ⟨s, hs, rfl⟩ := List.mem_map.mp ha
      exact accrual_output_not_eligible D h s
    show (((runMonthlyAccrual students D).1).filter (accrualEligibleB D)).length = 0
    rw [hnil]
    rfl
  · show ((runMonthlyAccrual students D).1).map
        (fun s => if accrualEligibleB D s then accrualStep D s else s)
      = (runMonthlyAccrual students D).1
    apply list_map_id_of
    intro a ha
    simp only [runMonthlyAccrual] at ha
    obtain ⟨s, hs, rfl⟩ := List.mem_map.mp ha
    have hfa := accrual_output_not_eligible D h s
    simp [hfa]

theorem c2_witness :
    (runMonthlyAccrual [sampleStudentA] sampleDate).2
        = ([sampleStudentA].filter (accrualEligibleB sampleDate)).length
    ∧ (runMonthlyAccrual (runMonthlyAccrual [sampleStudentA] sampleDate).1 sampleDate).2 = 0
    ∧ (runMonthlyAccrual (runMonthlyAccrual [sampleStudentA] sampleDate).1 sampleDate).1
        = (runMonthlyAccrual [sampleStudentA] sampleDate).1 :=
  c2_accrual_idempotent [sampleStudentA] sampleDate (by decide)

/-- C3: for every student selected by an accrual run with reference date
`D`, the post-run `feeDue` is the pre-run `feeDue` plus that student's
`monthlyFee` and the post-run `lastFeeCalculatedDate` is `D`; unselected
students are unchanged, and the endpoint reports the number of modified
rows. -/
theorem c3_accrual_effect (students : List Student) (D : Date) :
    List.Forall₂ (fun a b =>
        (accrualEligibleB D a = true →
          b.feeDue = a.feeDue + a.monthlyFee ∧ b.lastFeeCalculatedDate = some D)
      ∧ (accrualEligibleB D a = false → b = a))
      students (runMonthlyAccrual students D).1
    ∧ (runMonthlyAccrual students D).2
        = (students.filter (accrualEligibleB D)).length := by
  refine ⟨?_, rfl⟩
  apply list_forall2_map_self
  intro a ha
  constructor
  · intro he
    rw [if_pos he]
    exact ⟨rfl, rfl⟩
  · intro he
    rw [if_neg (by simp [he])]

theorem c3_witness :
    List.Forall₂ (fun a b =>
        (accrualEligibleB sampleDate a = true →
          b.feeDue = a.feeDue + a.monthlyFee ∧ b.lastFeeCalculatedDate = some sampleDate)
      ∧ (accrualEligibleB sampleDate a = false → b = a))
      [sampleStudentA, sampleStudentLeft]
      (runMonthlyAccrual [sampleStudentA, sampleStudentLeft] sampleDate).1
    ∧ (runMonthlyAccrual [sampleStudentA, sampleStudentLeft] sampleDate).2
        = ([sampleStudentA, sampleStudentLeft].filter (accrualEligibleB sampleDate)).length :=
  c3_accrual_effect [sampleStudentA, sampleStudentLeft] sampleDate

/-- C4: a student whose `leftDate` is set is never affected by a monthly
accrual run, whatever `monthlyFee` and `lastFeeCalculatedDate` are — the
corresponding output row is identical to the input row. -/
theorem c4_departed_never_affected (students : List Student) (D : Date) :
    List.Forall₂ (fun a b => a.leftDate.isSome = true → b = a)
      students (runMonthlyAccrual students D).1 := by
  apply list_forall2_map_self
  intro a ha hsome
  cases hld : a.leftDate with
  | none => rw [hld] at hsome; exact absurd hsome (by simp)
  | some v =>
    have hfa : accrualEligibleB D a = false := by simp [accrualEligibleB, hld]
    rw [if_neg (by simp [hfa])]

theorem c4_witness :
    List.Forall₂ (fun a b => a.leftDate.isSome = true → b = a)
      [sampleStudentLeft] (runMonthlyAccrual [sampleStudentLeft] sampleDate).1 :=
  c4_departed_never_affected [sampleStudentLeft] sampleDate

/-- C5: for a student selected by accrual, the stored status becomes
`'Pending'` exactly when `monthlyFee` is positive and the new balance is
positive, and is otherwise left at its prior value; in particular accrual
never writes `'Paid'` — an output status of `'Paid'` can only be the
unchanged prior status. -/
theorem c5_accrual_status (students : List Student) (D : Date) :
    List.Forall₂ (fun a b =>
        (accrualEligibleB D a = true →
          b.status = if 0 < a.monthlyFee ∧ 0 < a.feeDue + a.monthlyFee
            then "Pending" else a.status)
      ∧ (b.status = "Paid" → a.status = "Paid"))
      students (runMonthlyAccrual students D).1 := by
  apply list_forall2_map_self
  intro a ha
  by_cases he : accrualEligibleB D a = true
  · rw [if_pos he]
    refine ⟨fun _ => rfl, ?_⟩
    intro hp
    by_cases hc : 0 < a.monthlyFee ∧ 0 < a.feeDue + a.monthlyFee
    · rw [show (accrualStep D a).status = "Pending" from by simp [accrualStep, hc]] at hp
      exact absurd hp (by decide)
    · rwa [show (accrualStep D a).status = a.status from by simp [accrualStep, hc]] at hp
  · rw [if_neg he]
    exact ⟨fun hcontra => absurd hcontra he, fun hp => hp⟩

theorem c5_witness :
    List.Forall₂ (fun a b =>
        (accrualEligibleB sampleDate a = true →
          b.status = if 0 < a.monthlyFee ∧ 0 < a.feeDue + a.monthlyFee
            then "Pending" else a.status)
      ∧ (b.status = "Paid" → a.status = "Paid"))
      [sampleStudentA, sampleStudentLeft]
      (runMonthlyAccrual [sampleStudentA, sampleStudentLeft] sampleDate).1 :=
  c5_accrual_status [sampleStudentA, sampleStudentLeft] sampleDate

def sampleInputNoFeeDue : StudentInput :=
  { name := "A", cabin := "C1", hall := "Hall A", phone := "9"
    feePaid := none, feeDue := none, monthlyFee := some 500, joinDate := none }

def sampleInputFeeDueFive : StudentInput :=
  { name := "A", cabin := "C1", hall := "Hall A", phone := "9"
    feePaid := some 100, feeDue := some 5, monthlyFee := some 500
    joinDate := some ⟨2024, 1, 1⟩ }

def sampleUpdate : UpdateInput :=
  { name := "A", cabin := "C1", hall := "Hall A", phone := "9"
    feePaidPresent := true, feeDuePresent := true
    feePaid := some 100, feeDue := some 5, monthlyFee := some 500
    joinDate := some ⟨2024, 1, 1⟩, leftDate := none }

/-- C1 (counterexample): creating a student with `feeDue` omitted stores a
balance of exactly 0 yet writes status `'Pending'`, so the stored status is
not `'Paid'` whenever the written `feeDue` is 0 — the stored status is not
a pure function of the written balance. -/
theorem c1_counterexample :
    (createStudent sampleInputNoFeeDue ⟨2024, 1, 1⟩ 1).feeDue = 0
    ∧ (createStudent sampleInputNoFeeDue ⟨2024, 1, 1⟩ 1).status = "Pending"
    ∧ ¬ (createStudent sampleInputNoFeeDue ⟨2024, 1, 1⟩ 1).status = "Paid" := by
  refine ⟨rfl, rfl, ?_⟩
  decide

/-- C1 (amended): for creation and edit the written status is `'Paid'`
exactly when the request's `feeDue` parses to the integer 0 and
`'Pending'` for every other parse result — in particular, when `feeDue` is
omitted or unparsable the stored balance defaults to 0 while the status is
written as `'Pending'`; during accrual the status is set to `'Pending'`
when `monthlyFee > 0` and the new balance is positive and is otherwise
left at its prior stored value. -/
theorem c1_amended_status_rule (inp : StudentInput) (today : Date) (nid : Nat)
    (s : Student) (upd : UpdateInput) (D : Date) (n : Int) :
    (inp.feeDue = some n →
      (createStudent inp today nid).feeDue = n ∧
      (createStudent inp today nid).status = (if n = 0 then "Paid" else "Pending"))
    ∧ (inp.feeDue = none →
      (createStudent inp today nid).feeDue = 0 ∧
      (createStudent inp today nid).status = "Pending")
    ∧ (upd.feeDue = some n →
      (updateStudentRecord s upd).feeDue = n ∧
      (updateStudentRecord s upd).status = (if n = 0 then "Paid" else "Pending"))
    ∧ (upd.feeDue = none →
      (updateStudentRecord s upd).feeDue = 0 ∧
      (updateStudentRecord s upd).status = "Pending")
    ∧ (accrualStep D s).status
        = (if 0 < s.monthlyFee ∧ 0 < s.feeDue + s.monthlyFee
            then "Pending" else s.status) := by
  refine ⟨?_, ?_, ?_, ?_, rfl⟩
  · intro hf
    constructor
    · simp [createStudent, hf]
    · simp [createStudent, hf]
  · intro hf
    constructor
    · simp [createStudent, hf]
    · simp [createStudent, hf]
  · intro hf
    constructor
    · simp [updateStudentRecord, hf]
    · simp [updateStudentRecord, hf]
  · intro hf
    constructor
    · simp [updateStudentRecord, hf]
    · simp [updateStudentRecord, hf]

theorem c1_witness :
    (sampleInputFeeDueFive.feeDue = some 5 →
      (createStudent sampleInputFeeDueFive ⟨2024, 1, 2⟩ 1).feeDue = 5 ∧
      (createStudent sampleInputFeeDueFive ⟨2024, 1, 2⟩ 1).status
        = (if (5 : Int) = 0 then "Paid" else "Pending"))
    ∧ (sampleInputFeeDueFive.feeDue = none →
      (createStudent sampleInputFeeDueFive ⟨2024, 1, 2⟩ 1).feeDue = 0 ∧
      (createStudent sampleInputFeeDueFive ⟨2024, 1, 2⟩ 1).status = "Pending")
    ∧ (sampleUpdate.feeDue = some 5 →
      (updateStudentRecord sampleStudentA sampleUpdate).feeDue = 5 ∧
      (updateStudentRecord sampleStudentA sampleUpdate).status
        = (if (5 : Int) = 0 then "Paid" else "Pending"))
    ∧ (sampleUpdate.feeDue = none →
      (updateStudentRecord sampleStudentA sampleUpdate).feeDue = 0 ∧
      (updateStudentRecord sampleStudentA sampleUpdate).status = "Pending")
    ∧ (accrualStep sampleDate sampleStudentA).status
        = (if 0 < sampleStudentA.monthlyFee
              ∧ 0 < sampleStudentA.feeDue + sampleStudentA.monthlyFee
            then "Pending" else sampleStudentA.status) :=
  c1_amended_status_rule sampleInputFeeDueFive ⟨2024, 1, 2⟩ 1
    sampleStudentA sampleUpdate sampleDate 5

def sampleStudentEmptyLeft : Student :=
  { id := 3, name := "C", cabin := "C3", hall := "Hall A", phone := "7"
    feePaid := 0, feeDue := 100, status := "Pending"
    joinDate := some ⟨2024, 1, 5⟩, leftDate := some ""
    monthlyFee := 200, lastFeeCalculatedDate := none }

/-- C10: a student whose `left_date` is stored as the empty string is
treated inconsistently: the dashboard counts the student as active and
includes the `monthlyFee` in the active monthly-fee total, while the
accrual run and the upcoming-fees view (which test `left_date IS NULL`
only) leave the student out entirely. -/
theorem c10_empty_leftDate_inconsistent (s : Student) (rest : List Student)
    (halls : List StudyHall) (D : Date) (h : s.leftDate = some "") :
    (dashboard halls (s :: rest)).activeStudents
        = (dashboard halls rest).activeStudents + 1
    ∧ (dashboard halls (s :: rest)).monthlyFeeTotal
        = s.monthlyFee + (dashboard halls rest).monthlyFeeTotal
    ∧ (runMonthlyAccrual (s :: rest) D).1 = s :: (runMonthlyAccrual rest D).1
    ∧ (runMonthlyAccrual (s :: rest) D).2 = (runMonthlyAccrual rest D).2
    ∧ upcomingFees (s :: rest) = upcomingFees rest := by
  have hact : dashActiveB s = true := by simp [dashActiveB, h]
  have hel : accrualEligibleB D s = false := by simp [accrualEligibleB, h]
  have hup : upcomingWhereB s = false := by simp [upcomingWhereB, h]
  refine ⟨?_, ?_, ?_, ?_, ?_⟩
  · simp [dashboard, List.filter_cons, hact]
  · simp [dashboard, List.filter_cons, hact]
  · simp [runMonthlyAccrual, hel]
  · simp [runMonthlyAccrual, List.filter_cons, hel]
  · simp [upcomingFees, List.filter_cons, hup]

theorem c10_witness :
    (dashboard [] [sampleStudentEmptyLeft, sampleStudentA]).activeStudents
        = (dashboard [] [sampleStudentA]).activeStudents + 1
    ∧ (dashboard [] [sampleStudentEmptyLeft, sampleStudentA]).monthlyFeeTotal
        = sampleStudentEmptyLeft.monthlyFee
            + (dashboard [] [sampleStudentA]).monthlyFeeTotal
    ∧ (runMonthlyAccrual [sampleStudentEmptyLeft, sampleStudentA] sampleDate).1
        = sampleStudentEmptyLeft :: (runMonthlyAccrual [sampleStudentA] sampleDate).1
    ∧ (runMonthlyAccrual [sampleStudentEmptyLeft, sampleStudentA] sampleDate).2
        = (runMonthlyAccrual [sampleStudentA] sampleDate).2
    ∧ upcomingFees [sampleStudentEmptyLeft, sampleStudentA]
        = upcomingFees [sampleStudentA] :=
  c10_empty_leftDate_inconsistent sampleStudentEmptyLeft [sampleStudentA] []
    sampleDate (by decide)

/-- C8: `markLeft` and `reactivate` touch only the `leftDate` column of
rows with the targeted id — `markLeft` writes the supplied date (or today
when the date is omitted) without touching `feeDue`/`status`,
`reactivate` clears `leftDate` without resetting
`lastFeeCalculatedDate`, every other field and every other student's row
are unchanged, and both report NotFound when no student has the id. -/
theorem c8_lifecycle_frame (students : List Student) (sid : Nat)
    (ld : Option String) (today : String) :
    (∀ out, markLeft students sid ld today = Except.ok out →
      List.Forall₂ (fun a b =>
        b.id = a.id ∧ b.name = a.name ∧ b.cabin = a.cabin ∧ b.hall = a.hall
        ∧ b.phone = a.phone ∧ b.feePaid = a.feePaid ∧ b.feeDue = a.feeDue
        ∧ b.status = a.status ∧ b.joinDate = a.joinDate
        ∧ b.monthlyFee = a.monthlyFee
        ∧ b.lastFeeCalculatedDate = a.lastFeeCalculatedDate
        ∧ (a.id = sid → b.leftDate = some (markLeftDate ld today))
        ∧ (¬ a.id = sid → b.leftDate = a.leftDate)) students out)
    ∧ (∀ out, reactivate students sid = Except.ok out →
      List.Forall₂ (fun a b =>
        b.id = a.id ∧ b.name = a.name ∧ b.cabin = a.cabin ∧ b.hall = a.hall
        ∧ b.phone = a.phone ∧ b.feePaid = a.feePaid ∧ b.feeDue = a.feeDue
        ∧ b.status = a.status ∧ b.joinDate = a.joinDate
        ∧ b.monthlyFee = a.monthlyFee
        ∧ b.lastFeeCalculatedDate = a.lastFeeCalculatedDate
        ∧ (a.id = sid → b.leftDate = none)
        ∧ (¬ a.id = sid → b.leftDate = a.leftDate)) students out)
    ∧ ((∀ s ∈ students, ¬ s.id = sid) →
        markLeft students sid ld today = Except.error ApiError.notFound
        ∧ reactivate students sid = Except.error ApiError.notFound)
    ∧ (ld = none → markLeftDate ld today = today)
    ∧ (∀ dstr, ld = some dstr → ¬ dstr = "" → markLeftDate ld today = dstr) := by
  have hany_false : (∀ s ∈ students, ¬ s.id = sid) →
      students.any (fun s => decide (s.id = sid)) = false := by
    intro hnone
    by_cases hb : students.any (fun s => decide (s.id = sid)) = true
    · obtain ⟨s, hs, hp⟩ := List.any_eq_true.mp hb
      exact absurd (of_decide_eq_true hp) (hnone s hs)
    · exact Bool.eq_false_iff.mpr hb
  refine ⟨?_, ?_, ?_, ?_, ?_⟩
  · intro out hout
    unfold markLeft at hout
    by_cases hb : students.any (fun s => decide (s.id = sid)) = true
    · rw [if_pos hb] at hout
      cases hout
      apply list_forall2_map_self
      intro a ha
      by_cases hid : a.id = sid
      · rw [if_pos hid]
        exact ⟨rfl, rfl, rfl, rfl, rfl, rfl, rfl, rfl, rfl, rfl, rfl,
          fun _ => rfl, fun hn => absurd hid hn⟩
      · rw [if_neg hid]
        exact ⟨rfl, rfl, rfl, rfl, rfl, rfl, rfl, rfl, rfl, rfl, rfl,
          fun hc => absurd hc hid, fun _ => rfl⟩
    · rw [if_neg hb] at hout
      exact Except.noConfusion hout
  · intro out hout
    unfold reactivate at hout
    by_cases hb : students.any (fun s => decide (s.id = sid)) = true
    · rw [if_pos hb] at hout
      cases hout
      apply list_forall2_map_self
      intro a ha
      by_cases hid : a.id = sid
      · rw [if_pos hid]
        exact ⟨rfl, rfl, rfl, rfl, rfl, rfl, rfl, rfl, rfl, rfl, rfl,
          fun _ => rfl, fun hn => absurd hid hn⟩
      · rw [if_neg hid]
        exact ⟨rfl, rfl, rfl, rfl, rfl, rfl, rfl, rfl, rfl, rfl, rfl,
          fun hc => absurd hc hid, fun _ => rfl⟩
    · rw [if_neg hb] at hout
      exact Except.noConfusion hout
  · intro hnone
    have hb := hany_false hnone
    constructor
    · unfold markLeft
      rw [if_neg (by simp [hb])]
    · unfold reactivate
      rw [if_neg (by simp [hb])]
  · intro hld
    rw [hld]
    rfl
  · intro dstr hld hne
    rw [hld]
    simp [markLeftDate, hne]

theorem c8_witness :
    (∀ out, markLeft [sampleStudentA, sampleStudentLeft] 1 none "2024-02-02"
        = Except.ok out →
      List.Forall₂ (fun a b =>
        b.id = a.id ∧ b.name = a.name ∧ b.cabin = a.cabin ∧ b.hall = a.hall
        ∧ b.phone = a.phone ∧ b.feePaid = a.feePaid ∧ b.feeDue = a.feeDue
        ∧ b.status = a.status ∧ b.joinDate = a.joinDate
        ∧ b.monthlyFee = a.monthlyFee
        ∧ b.lastFeeCalculatedDate = a.lastFeeCalculatedDate
        ∧ (a.id = 1 → b.leftDate = some (markLeftDate none "2024-02-02"))
        ∧ (¬ a.id = 1 → b.leftDate = a.leftDate))
        [sampleStudentA, sampleStudentLeft] out)
    ∧ (∀ out, reactivate [sampleStudentA, sampleStudentLeft] 1 = Except.ok out →
      List.Forall₂ (fun a b =>
        b.id = a.id ∧ b.name = a.name ∧ b.cabin = a.cabin ∧ b.hall = a.hall
        ∧ b.phone = a.phone ∧ b.feePaid = a.feePaid ∧ b.feeDue = a.feeDue
        ∧ b.status = a.status ∧ b.joinDate = a.joinDate
        ∧ b.monthlyFee = a.monthlyFee
        ∧ b.lastFeeCalculatedDate = a.lastFeeCalculatedDate
        ∧ (a.id = 1 → b.leftDate = none)
        ∧ (¬ a.id = 1 → b.leftDate = a.leftDate))
        [sampleStudentA, sampleStudentLeft] out)
    ∧ ((∀ s ∈ [sampleStudentA, sampleStudentLeft], ¬ s.id = 1) →
        markLeft [sampleStudentA, sampleStudentLeft] 1 none "2024-02-02"
          = Except.error ApiError.notFound
        ∧ reactivate [sampleStudentA, sampleStudentLeft] 1
          = Except.error ApiError.notFound)
    ∧ ((none : Option String) = none →
        markLeftDate none "2024-02-02" = "2024-02-02")
    ∧ (∀ dstr, (none : Option String) = some dstr → ¬ dstr = "" →
        markLeftDate none "2024-02-02" = dstr) :=
  c8_lifecycle_frame [sampleStudentA, sampleStudentLeft] 1 none "2024-02-02"

theorem find_hall_unique {halls : List StudyHall} {hid : Nat}
    (huniq : halls.Pairwise (fun a b => ¬ a.id = b.id)) {h : StudyHall}
    (hmem : h ∈ halls) (hideq : h.id = hid) :
    halls.find? (fun x => decide (x.id = hid)) = some h := by
  induction halls with
  | nil => cases hmem
  | cons a t ih =>
    by_cases hpa : a.id = hid
    · rw [List.find?_cons_of_pos _ (by simp [hpa])]
      cases List.mem_cons.mp hmem with
      | inl he => rw [he]
      | inr ht =>
        have hne := (List.pairwise_cons.mp huniq).1 h ht
        exact absurd (hpa.trans hideq.symm) hne
    · rw [List.find?_cons_of_neg _ (by simp [hpa])]
      cases List.mem_cons.mp hmem with
      | inl he => exact absurd (he ▸ hideq) hpa
      | inr ht => exact ih (List.pairwise_cons.mp huniq).2 ht

theorem find_hall_none {halls : List StudyHall} {hid : Nat}
    (hnone : ∀ h ∈ halls, ¬ h.id = hid) :
    halls.find? (fun x => decide (x.id = hid)) = none := by
  induction halls with
  | nil => rfl
  | cons a t ih =>
    rw [List.find?_cons_of_neg _ (by simp [hnone a (List.mem_cons_self a t)])]
    exact ih (fun b hb => hnone b (List.mem_cons_of_mem a hb))

/-- C9: deleting a study hall fails with Conflict (leaving the hall in
place) whenever some student's `hall` field equals the hall's name, fails
with NotFound when no hall has the id, succeeds otherwise, and in the
one-referencing-student scenario the deletion fails first and succeeds
after that student is deleted. -/
theorem c9_deleteStudyHall_spec (halls : List StudyHall)
    (students : List Student) (hid : Nat)
    (huniq : halls.Pairwise (fun a b => ¬ a.id = b.id)) :
    (∀ h ∈ halls, h.id = hid → (∃ s ∈ students, s.hall = h.name) →
      deleteStudyHall halls students hid = Except.error ApiError.conflict)
    ∧ ((∀ h ∈ halls, ¬ h.id = hid) →
      deleteStudyHall halls students hid = Except.error ApiError.notFound)
    ∧ (∀ h ∈ halls, h.id = hid → (∀ s ∈ students, ¬ s.hall = h.name) →
      deleteStudyHall halls students hid
        = Except.ok (halls.filter (fun x => decide (x.id ≠ hid))))
    ∧ (∀ h ∈ halls, h.id = hid → ∀ s ∈ students, s.hall = h.name →
      (∀ t ∈ students, t.hall = h.name → t.id = s.id) →
      deleteStudyHall halls students hid = Except.error ApiError.conflict
      ∧ ∀ out, deleteStudent students s.id = Except.ok out →
          deleteStudyHall halls out hid
            = Except.ok (halls.filter (fun x => decide (x.id ≠ hid)))) := by
  have hconf : ∀ h ∈ halls, h.id = hid → (∃ s ∈ students, s.hall = h.name) →
      deleteStudyHall halls students hid = Except.error ApiError.conflict := by
    intro h hmem hideq hex
    obtain ⟨s, hs, hhall⟩ := hex
    have hpos : 0 < (students.filter (fun x => decide (x.hall = h.name))).length := by
      have hmemf : s ∈ students.filter (fun x => decide (x.hall = h.name)) :=
        List.mem_filter.mpr ⟨hs, by simp [hhall]⟩
      cases hlf : students.filter (fun x => decide (x.hall = h.name)) with
      | nil => rw [hlf] at hmemf; cases hmemf
      | cons a t => simp [hlf]
    simp only [deleteStudyHall, find_hall_unique huniq hmem hideq, Option.map_some']
    rw [if_pos hpos]
  have hok : ∀ (sts : List Student), ∀ h ∈ halls, h.id = hid →
      (∀ s ∈ sts, ¬ s.hall = h.name) →
      deleteStudyHall halls sts hid
        = Except.ok (halls.filter (fun x => decide (x.id ≠ hid))) := by
    intro sts h hmem hideq hnoref
    have hzero : (sts.filter (fun x => decide (x.hall = h.name))).length = 0 := by
      rw [list_filter_eq_nil_of _ _ (fun a ha => by simp [hnoref a ha])]
      rfl
    have hb : halls.any (fun x => decide (x.id = hid)) = true :=
      List.any_eq_true.mpr ⟨h, hmem, by simp [hideq]⟩
    simp only [deleteStudyHall, find_hall_unique huniq hmem hideq, Option.map_some']
    rw [if_neg (by omega), if_pos hb]
  refine ⟨hconf, ?_, fun h hmem hideq => hok students h hmem hideq, ?_⟩
  · intro hnone
    have hb : halls.any (fun x => decide (x.id = hid)) = false := by
      by_cases hx : halls.any (fun x => decide (x.id = hid)) = true
      · obtain ⟨h, hmem, hp⟩ := List.any_eq_true.mp hx
        exact absurd (of_decide_eq_true hp) (hnone h hmem)
      · exact Bool.eq_false_iff.mpr hx
    simp only [deleteStudyHall, find_hall_none hnone, Option.map_none']
    rw [if_neg (by simp), if_neg (by simp [hb])]
  · intro h hmem hideq s hs hhall honly
    refine ⟨hconf h hmem hideq ⟨s, hs, hhall⟩, ?_⟩
    intro out hout
    unfold deleteStudent at hout
    by_cases hb : students.any (fun x => decide (x.id = s.id)) = true
    · rw [if_pos hb] at hout
      cases hout
      apply hok _ h hmem hideq
      intro t ht hthall
      have ht' := List.mem_filter.mp ht
      have htne : ¬ t.id = s.id := of_decide_eq_true ht'.2
      exact htne (honly t ht'.1 hthall)
    · rw [if_neg hb] at hout
      exact Except.noConfusion hout

def sampleHallA : StudyHall :=
  { id := 1, name := "Hall A", capacity := 10, location := "L1", description := "" }

def sampleHallB : StudyHall :=
  { id := 2, name := "B Hall", capacity := 5, location := "L2", description := "d" }

theorem c9_witness :
    (∀ h ∈ [sampleHallA], h.id = 1 →
      (∃ s ∈ [sampleStudentA], s.hall = h.name) →
      deleteStudyHall [sampleHallA] [sampleStudentA] 1
        = Except.error ApiError.conflict)
    ∧ ((∀ h ∈ [sampleHallA], ¬ h.id = 1) →
      deleteStudyHall [sampleHallA] [sampleStudentA] 1
        = Except.error ApiError.notFound)
    ∧ (∀ h ∈ [sampleHallA], h.id = 1 → (∀ s ∈ [sampleStudentA], ¬ s.hall = h.name) →
      deleteStudyHall [sampleHallA] [sampleStudentA] 1
        = Except.ok ([sampleHallA].filter (fun x => decide (x.id ≠ 1))))
    ∧ (∀ h ∈ [sampleHallA], h.id = 1 → ∀ s ∈ [sampleStudentA], s.hall = h.name →
      (∀ t ∈ [sampleStudentA], t.hall = h.name → t.id = s.id) →
      deleteStudyHall [sampleHallA] [sampleStudentA] 1
        = Except.error ApiError.conflict
      ∧ ∀ out, deleteStudent [sampleStudentA] s.id = Except.ok out →
          deleteStudyHall [sampleHallA] out 1
            = Except.ok ([sampleHallA].filter (fun x => decide (x.id ≠ 1)))) :=
  c9_deleteStudyHall_spec [sampleHallA] [sampleStudentA] 1 (by decide)

theorem feeRow_spec (students : List Student) (h : StudyHall) :
    ((feeRow students h).totalStudents = 0 ∨ (feeRow students h).totalFeeAmount = 0 →
      (feeRow students h).collectionRate = 0
      ∧ (feeRow students h).collectionRateStr = "0%")
    ∧ (¬ ((feeRow students h).totalStudents = 0 ∨ (feeRow students h).totalFeeAmount = 0) →
      (feeRow students h).collectionRate
        = round1 (((feeRow students h).feesCollected : ℚ) * 100
            / ((feeRow students h).totalFeeAmount : ℚ))
      ∧ ((feeRow students h).collectionRate = 0 →
          (feeRow students h).collectionRateStr = "0%")
      ∧ (¬ (feeRow students h).collectionRate = 0 →
          (feeRow students h).collectionRateStr
            = toString (feeRow students h).collectionRate ++ "%")) := by
  dsimp only [feeRow]
  constructor
  · intro hguard
    rw [if_pos hguard]
    exact ⟨rfl, by rw [if_pos rfl]⟩
  · intro hng
    rw [if_neg hng]
    refine ⟨rfl, ?_, ?_⟩
    · intro hz
      rw [if_pos hz]
    · intro hz
      rw [if_neg hz]

/-- C6: in the fee-collection report every study hall appears (also halls
with no matching students), the rows are ordered by hall name, and each
row's numeric `collectionRate` is `feesCollected * 100 / totalFeeAmount`
rounded to one decimal except that it is 0 — rendered as exactly the
string `0%` — whenever the hall has no students or `totalFeeAmount` is 0;
a rate equal to 0 always renders as `0%` and any other rate as the number
followed by `%`. -/
theorem c6_feeCollectionReport_spec (halls : List StudyHall)
    (students : List Student) :
    ((feeCollectionReport halls students).map ReportRow.hall).Perm
        (halls.map StudyHall.name)
    ∧ (feeCollectionReport halls students).Pairwise (fun a b => a.hall ≤ b.hall)
    ∧ (∀ h ∈ halls, ∃ r ∈ feeCollectionReport halls students, r.hall = h.name)
    ∧ (∀ r ∈ feeCollectionReport halls students,
        (r.totalStudents = 0 ∨ r.totalFeeAmount = 0 →
          r.collectionRate = 0 ∧ r.collectionRateStr = "0%")
      ∧ (¬ (r.totalStudents = 0 ∨ r.totalFeeAmount = 0) →
          r.collectionRate
            = round1 ((r.feesCollected : ℚ) * 100 / (r.totalFeeAmount : ℚ))
          ∧ (r.collectionRate = 0 → r.collectionRateStr = "0%")
          ∧ (¬ r.collectionRate = 0 →
              r.collectionRateStr = toString r.collectionRate ++ "%"))) := by
  refine ⟨?_, ?_, ?_, ?_⟩
  · simp only [feeCollectionReport, List.map_map]
    have hcomp : (ReportRow.hall ∘ feeRow students) = StudyHall.name := by
      funext x
      rfl
    rw [hcomp]
    exact (List.perm_insertionSort hallLe halls).map StudyHall.name
  · have hs : List.Sorted hallLe (List.insertionSort hallLe halls) :=
      List.sorted_insertionSort hallLe halls
    exact List.Pairwise.map _ (fun a b hab => hab) hs
  · intro h hmem
    refine ⟨feeRow students h, ?_, rfl⟩
    exact List.mem_map_of_mem (feeRow students)
      ((List.mem_insertionSort hallLe).mpr hmem)
  · intro r hr
    obtain ⟨h, hmem, rfl⟩ := List.mem_map.mp hr
    exact feeRow_spec students h

theorem c6_witness :
    ((feeCollectionReport [sampleHallB, sampleHallA] [sampleStudentA]).map
        ReportRow.hall).Perm ([sampleHallB, sampleHallA].map StudyHall.name)
    ∧ (feeCollectionReport [sampleHallB, sampleHallA] [sampleStudentA]).Pairwise
        (fun a b => a.hall ≤ b.hall)
    ∧ (∀ h ∈ [sampleHallB, sampleHallA],
        ∃ r ∈ feeCollectionReport [sampleHallB, sampleHallA] [sampleStudentA],
          r.hall = h.name)
    ∧ (∀ r ∈ feeCollectionReport [sampleHallB, sampleHallA] [sampleStudentA],
        (r.totalStudents = 0 ∨ r.totalFeeAmount = 0 →
          r.collectionRate = 0 ∧ r.collectionRateStr = "0%")
      ∧ (¬ (r.totalStudents = 0 ∨ r.totalFeeAmount = 0) →
          r.collectionRate
            = round1 ((r.feesCollected : ℚ) * 100 / (r.totalFeeAmount : ℚ))
          ∧ (r.collectionRate = 0 → r.collectionRateStr = "0%")
          ∧ (¬ r.collectionRate = 0 →
              r.collectionRateStr = toString r.collectionRate ++ "%"))) :=
  c6_feeCollectionReport_spec [sampleHallB, sampleHallA] [sampleStudentA]

/-- C7: the upcoming-fees view contains exactly the active students
(`leftDate` NULL) with positive `monthlyFee`, annotated with
`nextFeeDate` equal to `joinDate` when no accrual has been stamped and to
`lastFeeCalculatedDate` plus one calendar month otherwise, and the rows
are sorted ascending by `nextFeeDate`. -/
theorem c7_upcomingFees_spec (students : List Student) :
    List.Sorted rowLe (upcomingFees students)
    ∧ (upcomingFees students).Perm
        ((students.filter upcomingWhereB).map (fun s => (s, nextFeeDate s)))
    ∧ (∀ x ∈ upcomingFees students,
        x.1.leftDate = none ∧ 0 < x.1.monthlyFee
        ∧ x.2 = nextFeeDate x.1
        ∧ (x.1.lastFeeCalculatedDate = none → x.2 = x.1.joinDate)
        ∧ (∀ d, x.1.lastFeeCalculatedDate = some d →
            x.2 = some (datePlusOneMonth d)))
    ∧ (∀ s ∈ students, s.leftDate = none → 0 < s.monthlyFee →
        ∃ x ∈ upcomingFees students, x.1 = s ∧ x.2 = nextFeeDate s) := by
  refine ⟨?_, ?_, ?_, ?_⟩
  · exact List.sorted_insertionSort rowLe _
  · exact List.perm_insertionSort rowLe _
  · intro x hx
    unfold upcomingFees at hx
    rw [List.mem_insertionSort] at hx
    obtain ⟨s, hs, rfl⟩ := List.mem_map.mp hx
    have hw := (List.mem_filter.mp hs).2
    simp only [upcomingWhereB, Bool.and_eq_true, Option.isNone_iff_eq_none,
      decide_eq_true_eq] at hw
    refine ⟨hw.1, hw.2, rfl, ?_, ?_⟩
    · intro hnone
      show nextFeeDate s = s.joinDate
      unfold nextFeeDate
      rw [hnone]
    · intro d hd
      show nextFeeDate s = some (datePlusOneMonth d)
      unfold nextFeeDate
      rw [hd]
  · intro s hs hld hmf
    refine ⟨(s, nextFeeDate s), ?_, rfl, rfl⟩
    unfold upcomingFees
    rw [List.mem_insertionSort]
    exact List.mem_map_of_mem _
      (List.mem_filter.mpr ⟨hs, by simp [upcomingWhereB, hld, hmf]⟩)

theorem c7_witness :
    List.Sorted rowLe (upcomingFees [sampleStudentA, sampleStudentLeft])
    ∧ (upcomingFees [sampleStudentA, sampleStudentLeft]).Perm
        (([sampleStudentA, sampleStudentLeft].filter upcomingWhereB).map
          (fun s => (s, nextFeeDate s)))
    ∧ (∀ x ∈ upcomingFees [sampleStudentA, sampleStudentLeft],
        x.1.leftDate = none ∧ 0 < x.1.monthlyFee
        ∧ x.2 = nextFeeDate x.1
        ∧ (x.1.lastFeeCalculatedDate = none → x.2 = x.1.joinDate)
        ∧ (∀ d, x.1.lastFeeCalculatedDate = some d →
            x.2 = some (datePlusOneMonth d)))
    ∧ (∀ s ∈ [sampleStudentA, sampleStudentLeft], s.leftDate = none →
        0 < s.monthlyFee →
        ∃ x ∈ upcomingFees [sampleStudentA, sampleStudentLeft],
          x.1 = s ∧ x.2 = nextFeeDate s) :=
  c7_upcomingFees_spec [sampleStudentA, sampleStudentLeft]
